import Mathlib

/-!
Verification of the IAM repository's authentication session lifecycle,
permission resolver, transport crypto framing and request guard.

The definitions below are a shallow embedding of the TypeScript sources:
  - `src/modules/iam/authentication/repository/session-repository.service.ts`
  - `src/modules/iam/authentication/auth-session.service.ts`
  - the `AuthenticationService` (signIn / refresh / signOut / token verification)
  - `src/modules/iam/authentication/authentication.guard.ts`
  - the `AuthorizationService.hasPermission` resolver
  - `src/services/crypto/crypto.service.ts` (byte-level framing over base64)

External collaborators (MongoDB, the JWT library, node:crypto, bcrypt) are
modelled as explicit functional parameters; every store mutation is explicit
state passing over a list of session documents.
-/

namespace IAM

/-- Platform enum (`platforms.enum.ts`): web / mobile / desktop contexts. -/
inductive PLATFORMS
  | web
  | mobile
  | desktop
deriving DecidableEq, Repr

/-- A NestJS `HttpException`: the thrown message together with its HTTP status
(`HttpStatus.UNAUTHORIZED = 401`, `HttpStatus.NOT_FOUND = 404`). -/
structure HttpException where
  message : String
  status : Nat
deriving DecidableEq, Repr

/-- The principal snapshot carried in token payloads (`UserModel`); only the
id is relevant to the session lifecycle. -/
structure UserModel where
  id : String
deriving DecidableEq, Repr

/-- One session document (`SessionEntity` / `SessionModel`); `deletedAt` is the
tombstone written by `deleteSessionById`, `isDeleted` is the flag added by the
soft-delete plugin (raised only by the plugin's own `softDelete` method, which
the session repository never calls). -/
structure SessionModel where
  id : String
  user : String
  ipAddress : String
  userAgent : String
  accessToken : String
  refreshToken : String
  startedAt : Nat
  endsAt : Nat
  platform : PLATFORMS
  deletedAt : Option Nat
  isDeleted : Bool
deriving DecidableEq, Repr

/-- The sessions collection: a list of session documents. -/
abbrev SessionStore := List SessionModel

/-- Modelled from the spec: the soft-delete query middleware. The plugin file
`soft-delete.plugin.ts` is not among the sources; the repository's MongoDB
architecture document specifies that `find`, `findOne` and `findOneAndUpdate`
queries are automatically filtered by `isDeleted ≠ true` (note: the filter is
on `isDeleted`, not on `deletedAt`). -/
def notSoftDeleted (s : SessionModel) : Bool :=
  !s.isDeleted

/-- `SessionRepositoryService.findSessionById`: `findById` delegates to
`findOne`, so the soft-delete middleware filter applies; returns the model or
null. -/
def findSessionById (store : SessionStore) (id : String) : Option SessionModel :=
  store.find? (fun s => s.id == id && notSoftDeleted s)

/-- `SessionRepositoryService.updateSessionTokens`: an UNCONDITIONAL
`findByIdAndUpdate(sessionId, { accessToken, refreshToken })` — the update is
keyed only by the document id (plus the soft-delete middleware filter); it is
not conditioned on the stored token pair. -/
def updateSessionTokens (store : SessionStore) (sessionId : String)
    (accessToken refreshToken : String) : SessionStore :=
  match store with
  | [] => []
  | s :: rest =>
    if s.id == sessionId && notSoftDeleted s then
      { s with accessToken := accessToken, refreshToken := refreshToken } :: rest
    else
      s :: updateSessionTokens rest sessionId accessToken refreshToken

/-- `SessionRepositoryService.deleteSessionById`: `findByIdAndUpdate(id,
{ deletedAt: generateUnixTime() })` — writes the tombstone timestamp (it does
NOT raise the plugin's `isDeleted` flag); returns whether a document matched. -/
def deleteSessionById (store : SessionStore) (id : String) (now : Nat) :
    SessionStore × Bool :=
  match store with
  | [] => ([], false)
  | s :: rest =>
    if s.id == id && notSoftDeleted s then
      ({ s with deletedAt := some now } :: rest, true)
    else
      let r := deleteSessionById rest id now
      (s :: r.1, r.2)

/-- `SessionRepositoryService.deleteSessionsByUserIdAndPlatform`:
`deleteMany({ user, platform })` — a hard delete of every session document of
the given user on the given platform. -/
def deleteSessionsByUserIdAndPlatform (store : SessionStore) (userId : String)
    (platform : PLATFORMS) : SessionStore :=
  store.filter (fun s => !(s.user == userId && s.platform == platform))

/-- `CreateSessionModel` (fields written by `requestToSessionModel`). -/
structure CreateSessionModel where
  user : String
  ipAddress : String
  userAgent : String
  accessToken : String
  refreshToken : String
  startedAt : Nat
  endsAt : Nat
  platform : PLATFORMS
deriving DecidableEq, Repr

/-- `CreateSessionModel.requestToSessionModel`: `startedAt = generateUnixTime()`
and `endsAt = generateUnixTime() + floor(sessionCookieOptions.maxAge / 1000)`
(`maxAge` is in milliseconds). -/
def requestToSessionModel (user ipAddress userAgent : String)
    (platform : PLATFORMS) (accessToken refreshToken : String)
    (now sessionMaxAgeMs : Nat) : CreateSessionModel :=
  { user := user, ipAddress := ipAddress, userAgent := userAgent,
    accessToken := accessToken, refreshToken := refreshToken,
    startedAt := now, endsAt := now + sessionMaxAgeMs / 1000,
    platform := platform }

/-- `SessionRepositoryService.createSession`: saves a new document; the id is
store-generated (passed here as `newId`); `deletedAt`/`isDeleted` start unset. -/
def createSession (store : SessionStore) (m : CreateSessionModel)
    (newId : String) : SessionStore × String :=
  (store ++ [{ id := newId, user := m.user, ipAddress := m.ipAddress,
               userAgent := m.userAgent, accessToken := m.accessToken,
               refreshToken := m.refreshToken, startedAt := m.startedAt,
               endsAt := m.endsAt, platform := m.platform,
               deletedAt := none, isDeleted := false }], newId)

/-! ## External collaborators of the `AuthenticationService` -/

/-- Stored credential record returned by the user lookup
(`UserAuthenticationCredentialsModel`): user id and the bcrypt password hash. -/
structure UserCredentials where
  id : String
  password : String
deriving DecidableEq, Repr

/-- The external identity lookup and password-hash capability consumed by the
authentication service (user repository + bcrypt, both outside the session
core): pure lookup functions plus an opaque `compare(plaintext, hash)`. -/
structure IdentityModel where
  findUserByCredentials : String → Option UserCredentials
  findUserById : String → Option UserModel
  bcryptCompare : String → String → Bool

/-- `IdentityService.getUserByCredentials`: repository lookup; a missing user
raises `HttpException('INVALID_CREDENTIALS', HttpStatus.NOT_FOUND)` (404). -/
def getUserByCredentials (idm : IdentityModel) (identifier : String) :
    Except HttpException UserCredentials :=
  match idm.findUserByCredentials identifier with
  | none => .error ⟨"INVALID_CREDENTIALS", 404⟩
  | some u => .ok u

/-- `IdentityService.getUserById`: repository lookup; a missing user raises
`HttpException('USER_NOT_FOUND', HttpStatus.NOT_FOUND)`. -/
def getUserById (idm : IdentityModel) (id : String) :
    Except HttpException UserModel :=
  match idm.findUserById id with
  | none => .error ⟨"USER_NOT_FOUND", 404⟩
  | some u => .ok u

/-- Failure modes of the external JWT library's `verifyAsync`
(`TokenExpiredError` past TTL, `JsonWebTokenError` for a bad signature or a
malformed token); all of them are thrown, none is an `HttpException`. -/
inductive JwtVerifyError
  | tokenExpired
  | invalidSignature
  | malformed
deriving DecidableEq, Repr

/-- Payload of a refresh token: `{ user, accessToken }` — the principal
snapshot plus the exact access-token string it was issued alongside. -/
structure RefreshTokenPayload where
  user : UserModel
  accessToken : String
deriving DecidableEq, Repr

/-- The external `JwtService`. Signing depends on the issuance time (the `iat`
claim), so `signAccess`/`signRefresh` take the current unix time; verification
returns the decoded payload or the library error it throws. -/
structure JwtModel where
  signAccess : UserModel → Nat → String
  signRefresh : UserModel → String → Nat → String
  verifyAccess : String → Except JwtVerifyError UserModel
  verifyRefresh : String → Except JwtVerifyError RefreshTokenPayload

/-- The transport-crypto wrappers (`CryptoService.encryptString` /
`decryptString`) as consumed by the session lifecycle: total string maps.
(The byte-level framing of the crypto service itself is embedded separately
below.) -/
structure CryptoModel where
  encryptString : String → String
  decryptString : String → String

/-! ## `AuthenticationService` -/

/-- Result model returned to the client (`AuthenticationCredentialsModel`):
tokens and session id, each passed through `CryptoService.encryptString`. -/
structure AuthenticationCredentialsModel where
  accessToken : String
  refreshToken : String
  sessionId : String
  user : UserModel
deriving DecidableEq, Repr

/-- `AuthenticationService.generateAuthenticationCredentialsModel`. -/
def generateAuthenticationCredentialsModel (crypto : CryptoModel)
    (user : UserModel) (accessToken refreshToken sessionId : String) :
    AuthenticationCredentialsModel :=
  { user := user,
    accessToken := crypto.encryptString accessToken,
    refreshToken := crypto.encryptString refreshToken,
    sessionId := crypto.encryptString sessionId }

/-- `SignInModel`: the sign-in request. -/
structure SignInModel where
  identifier : String
  password : String
  ipAddress : String
  userAgent : String
  platform : PLATFORMS
deriving DecidableEq, Repr

/-- `AuthenticationService.signIn`, with the store passed explicitly: an error
result leaves the store exactly as it was (every throw happens before any
store write). `now` is `generateUnixTime()`; `newSessionId` the store-generated
id; `sessionMaxAgeMs` is `sessionCookieOptions.maxAge`. -/
def signIn (idm : IdentityModel) (jwt : JwtModel) (crypto : CryptoModel)
    (store : SessionStore) (m : SignInModel) (now : Nat)
    (newSessionId : String) (sessionMaxAgeMs : Nat) :
    SessionStore × Except HttpException AuthenticationCredentialsModel :=
  match getUserByCredentials idm m.identifier with
  | .error e => (store, .error e)
  | .ok userCredentialsModel =>
    -- the service's own `if (!userCredentialsModel)` re-check is unreachable:
    -- `getUserByCredentials` has already thrown on a missing user
    if !idm.bcryptCompare m.password userCredentialsModel.password then
      (store, .error ⟨"INVALID_CREDENTIALS", 401⟩)
    else
      match getUserById idm userCredentialsModel.id with
      | .error e => (store, .error e)
      | .ok userModel =>
        let accessToken := jwt.signAccess userModel now
        let refreshToken := jwt.signRefresh userModel accessToken now
        let store1 := deleteSessionsByUserIdAndPlatform store userModel.id m.platform
        let csm := requestToSessionModel userModel.id m.ipAddress m.userAgent
          m.platform accessToken refreshToken now sessionMaxAgeMs
        let created := createSession store1 csm newSessionId
        (created.1, .ok (generateAuthenticationCredentialsModel crypto
          userModel accessToken refreshToken created.2))

/-- Everything thrown inside the `try` block of
`AuthenticationService.verifyRefreshToken`: either a JWT library error from
`verifyAsync`, or the service's own `HttpException`. -/
inductive RefreshVerifyThrown
  | jwtError (e : JwtVerifyError)
  | httpError (e : HttpException)
deriving DecidableEq, Repr

/-- The body of the `try` block in `verifyRefreshToken`: run `verifyAsync`,
then compare the payload's embedded `accessToken` with the presented one and
throw `HttpException('INVALID_REFRESH_TOKEN')` on mismatch. -/
def verifyRefreshTokenTryBlock (jwt : JwtModel)
    (refreshToken accessToken : String) :
    Except RefreshVerifyThrown RefreshTokenPayload :=
  match jwt.verifyRefresh refreshToken with
  | .error e => .error (.jwtError e)
  | .ok decodedRefreshToken =>
    if decodedRefreshToken.accessToken != accessToken then
      .error (.httpError ⟨"INVALID_REFRESH_TOKEN", 401⟩)
    else
      .ok decodedRefreshToken

/-- `AuthenticationService.verifyRefreshToken`: the whole `try` body is wrapped
in `catch (error) { throw HttpException('EXPIRED_REFRESH_TOKEN') }`, so EVERY
error of the body — including the body's own `INVALID_REFRESH_TOKEN` — is
re-thrown as `EXPIRED_REFRESH_TOKEN`. -/
def verifyRefreshToken (jwt : JwtModel) (refreshToken accessToken : String) :
    Except HttpException RefreshTokenPayload :=
  match verifyRefreshTokenTryBlock jwt refreshToken accessToken with
  | .error _ => .error ⟨"EXPIRED_REFRESH_TOKEN", 401⟩
  | .ok decodedRefreshToken => .ok decodedRefreshToken

/-- `RefreshSessionModel`: the three encrypted values presented to `refresh`. -/
structure RefreshSessionModel where
  accessToken : String
  refreshToken : String
  sessionId : String
deriving DecidableEq, Repr

/-- The read/verify prefix of `AuthenticationService.refresh` (everything up to
and including `verifyRefreshToken`, before any store write): decrypt the three
values, load the session, check expiry, require both presented tokens to equal
the stored pair, verify the refresh token. Returns the loaded session and the
decoded payload. -/
def refreshVerifyPhase (jwt : JwtModel) (crypto : CryptoModel)
    (store : SessionStore) (m : RefreshSessionModel) (now : Nat) :
    Except HttpException (SessionModel × RefreshTokenPayload) :=
  if m.sessionId == "" then .error ⟨"INVALID_SESSION_ID", 401⟩
  else if m.accessToken == "" then .error ⟨"INVALID_ACCESS_TOKEN", 401⟩
  else if m.refreshToken == "" then .error ⟨"INVALID_REFRESH_TOKEN", 401⟩
  else
    let sessionId := crypto.decryptString m.sessionId
    match findSessionById store sessionId with
    | none => .error ⟨"SESSION_NOT_FOUND", 401⟩
    | some session =>
      if session.endsAt < now then .error ⟨"SESSION_EXPIRED", 401⟩
      else
        let accessToken := crypto.decryptString m.accessToken
        let refreshToken := crypto.decryptString m.refreshToken
        if session.accessToken != accessToken then
          .error ⟨"INVALID_ACCESS_TOKEN", 401⟩
        else if session.refreshToken != refreshToken then
          .error ⟨"INVALID_REFRESH_TOKEN", 401⟩
        else
          match verifyRefreshToken jwt refreshToken accessToken with
          | .error e => .error e
          | .ok decodedRefreshToken => .ok (session, decodedRefreshToken)

/-- The write suffix of `AuthenticationService.refresh`: issue the new pair and
commit it with the unconditional `updateSessionTokens`, then build the result
under the same session id. -/
def refreshCommitPhase (jwt : JwtModel) (crypto : CryptoModel)
    (store : SessionStore) (session : SessionModel)
    (decodedRefreshToken : RefreshTokenPayload) (now : Nat) :
    SessionStore × AuthenticationCredentialsModel :=
  let newAccessToken := jwt.signAccess decodedRefreshToken.user now
  let newRefreshToken := jwt.signRefresh decodedRefreshToken.user newAccessToken now
  (updateSessionTokens store session.id newAccessToken newRefreshToken,
   generateAuthenticationCredentialsModel crypto decodedRefreshToken.user
     newAccessToken newRefreshToken session.id)

/-- `AuthenticationService.refresh`: the verify phase followed immediately by
the commit phase on the same store; an error leaves the store unchanged. -/
def refresh (jwt : JwtModel) (crypto : CryptoModel) (store : SessionStore)
    (m : RefreshSessionModel) (now : Nat) :
    SessionStore × Except HttpException AuthenticationCredentialsModel :=
  match refreshVerifyPhase jwt crypto store m now with
  | .error e => (store, .error e)
  | .ok (session, decodedRefreshToken) =>
    let committed := refreshCommitPhase jwt crypto store session decodedRefreshToken now
    (committed.1, .ok committed.2)

/-- Two `refresh` calls for the same session interleaved at the store boundary:
both verify phases read the same initial store (both pass against the same
stored pair), then the two commits run one after the other. This is the
read-read-write-write schedule the specification's compare-and-swap requirement
is meant to exclude. -/
def refreshInterleaved (jwt : JwtModel) (crypto : CryptoModel)
    (store : SessionStore) (m1 m2 : RefreshSessionModel) (now1 now2 : Nat) :
    Except HttpException AuthenticationCredentialsModel ×
    Except HttpException AuthenticationCredentialsModel × SessionStore :=
  match refreshVerifyPhase jwt crypto store m1 now1,
        refreshVerifyPhase jwt crypto store m2 now2 with
  | .ok (s1, d1), .ok (s2, d2) =>
    let c1 := refreshCommitPhase jwt crypto store s1 d1 now1
    let c2 := refreshCommitPhase jwt crypto c1.1 s2 d2 now2
    (.ok c1.2, .ok c2.2, c2.1)
  | .ok (s1, d1), .error e2 =>
    let c1 := refreshCommitPhase jwt crypto store s1 d1 now1
    (.ok c1.2, .error e2, c1.1)
  | .error e1, .ok (s2, d2) =>
    let c2 := refreshCommitPhase jwt crypto store s2 d2 now2
    (.error e1, .ok c2.2, c2.1)
  | .error e1, .error e2 => (.error e1, .error e2, store)

/-- `AuthenticationService.signOut`: reject a falsy id, load the session
(`SESSION_NOT_FOUND` when absent), then tombstone it via `deleteSessionById`;
an error leaves the store unchanged. -/
def signOut (store : SessionStore) (sessionId : String) (now : Nat) :
    SessionStore × Except HttpException Unit :=
  if sessionId == "" then (store, .error ⟨"INVALID_SESSION_ID", 401⟩)
  else
    match findSessionById store sessionId with
    | none => (store, .error ⟨"SESSION_NOT_FOUND", 401⟩)
    | some _ => ((deleteSessionById store sessionId now).1, .ok ())

/-! ## `AuthenticationGuard` -/

/-- Outcome of a guard run: either a NestJS `HttpException`, or the raw
JavaScript `TypeError` raised when the guard dereferences a `null` session
(`session.endsAt` with no null check) or calls `decryptString(undefined)`. -/
inductive GuardFailure
  | http (e : HttpException)
  | typeError
deriving DecidableEq, Repr

/-- The request headers consumed by the guard: the `authorization` header. -/
structure RequestHeaders where
  authorization : Option String
deriving DecidableEq, Repr

/-- Split a character list at every space, preserving empty pieces —
JavaScript's `str.split(' ')` on the character level ( `''.split(' ')` is
`['']` ). -/
def splitCharsOnSpace : List Char → List (List Char)
  | [] => [[]]
  | c :: rest =>
    let r := splitCharsOnSpace rest
    if c = ' ' then [] :: r
    else (c :: r.headD []) :: r.tail

/-- JavaScript's `str.split(' ')`. -/
def splitOnSpace (s : String) : List String :=
  (splitCharsOnSpace s.toList).map String.mk

/-- `AuthenticationGuard.getAccessToken`: missing header →
`NO_ACCESS_TOKEN`; `raw.split(' ')` destructured as `[type, token]`; a first
word other than `Bearer` → `INVALID_ACCESS_TOKEN`; otherwise decrypt the token
(`decryptString(undefined)` when there is no second word raises a TypeError). -/
def getAccessToken (crypto : CryptoModel) (headers : RequestHeaders) :
    Except GuardFailure String :=
  match headers.authorization with
  | none => .error (.http ⟨"NO_ACCESS_TOKEN", 401⟩)
  | some raw =>
    let parts := splitOnSpace raw
    if parts.headD "" != "Bearer" then .error (.http ⟨"INVALID_ACCESS_TOKEN", 401⟩)
    else
      match parts[1]? with
      | none => .error .typeError
      | some token => .ok (crypto.decryptString token)

/-- `AuthenticationGuard.getSessionId`: a falsy `sessionId` cookie (absent or
empty) → `INVALID_SESSION_ID`; otherwise decrypt it. -/
def getSessionId (crypto : CryptoModel) (sessionIdCookie : String) :
    Except GuardFailure String :=
  if sessionIdCookie == "" then .error (.http ⟨"INVALID_SESSION_ID", 401⟩)
  else .ok (crypto.decryptString sessionIdCookie)

/-- `AuthenticationGuard.canActivate`: extract and decrypt the bearer token and
the session id; load the session (NO null check — a missing session makes
`session.endsAt` throw a TypeError); `SESSION_EXPIRED` when past `endsAt`;
`INVALID_ACCESS_TOKEN` when the presented token differs from the stored one;
finally `verifyAccessToken` inside a `try` whose `catch` maps EVERY failure to
`EXPIRED_ACCESS_TOKEN`. Returns the token's principal snapshot. -/
def canActivate (jwt : JwtModel) (crypto : CryptoModel) (store : SessionStore)
    (headers : RequestHeaders) (sessionIdCookie : String) (now : Nat) :
    Except GuardFailure UserModel :=
  match getAccessToken crypto headers with
  | .error e => .error e
  | .ok accessToken =>
    match getSessionId crypto sessionIdCookie with
    | .error e => .error e
    | .ok sessionId =>
      match findSessionById store sessionId with
      | none => .error .typeError
      | some session =>
        if session.endsAt < now then .error (.http ⟨"SESSION_EXPIRED", 401⟩)
        else if session.accessToken != accessToken then
          .error (.http ⟨"INVALID_ACCESS_TOKEN", 401⟩)
        else
          match jwt.verifyAccess accessToken with
          | .error _ => .error (.http ⟨"EXPIRED_ACCESS_TOKEN", 401⟩)
          | .ok user => .ok user

/-! ## `AuthorizationService.hasPermission` -/

/-- Permission codes are opaque strings (`iam.authorization.CREATE_ROLE`, …). -/
abbrev Permission := String

/-- A role's grant sets (`RoleModel`, permission fields only). -/
structure RoleModel where
  includedPermissions : List Permission
  excludedPermissions : List Permission
deriving DecidableEq, Repr

/-- `UserAuthorizationCredentialsModel`: the per-principal grant set returned
by `IdentityService.getUserAuthorizationCredentials`. JavaScript `Set`s are
modelled as lists with membership semantics. -/
structure UserAuthorizationCredentialsModel where
  roles : List RoleModel
  includedPermissions : List Permission
  excludedPermissions : List Permission
  administratorAccess : Bool
deriving DecidableEq, Repr

/-- `AuthorizationService.hasPermission`, with the principal's grant set passed
directly (the service fetches it through
`identityService.getUserAuthorizationCredentials(userId)`):
empty requirement → true; administrator bypass; exclusion veto over the user's
excluded set and the union of all roles' excluded sets; then every required
permission must be in (roleIncluded minus roleExcluded) ∪ (userIncluded minus
userExcluded). -/
def hasPermission (creds : UserAuthorizationCredentialsModel)
    (requiredPermissions : List Permission) : Bool :=
  if requiredPermissions.isEmpty then true
  else if creds.administratorAccess then true
  else
    let userExcluded := creds.excludedPermissions
    let userIncluded := creds.includedPermissions
    let roleExcluded := (creds.roles.map RoleModel.excludedPermissions).flatten
    let roleIncluded := (creds.roles.map RoleModel.includedPermissions).flatten
    if requiredPermissions.any
        (fun perm => userExcluded.contains perm || roleExcluded.contains perm) then
      false
    else
      let effective := roleIncluded.filter (fun p => !roleExcluded.contains p) ++
        userIncluded.filter (fun p => !userExcluded.contains p)
      requiredPermissions.all (fun p => effective.contains p)

/-- Union of `excludedPermissions` across all assigned roles (the spec's
`roleExcluded`). -/
def roleExcludedPerms (creds : UserAuthorizationCredentialsModel) : List Permission :=
  (creds.roles.map RoleModel.excludedPermissions).flatten

/-- Union of `includedPermissions` across all assigned roles (the spec's
role-included union). -/
def roleIncludedPerms (creds : UserAuthorizationCredentialsModel) : List Permission :=
  (creds.roles.map RoleModel.includedPermissions).flatten

/-! ## `CryptoService`: byte-level framing

`encryptString` produces `base64(iv ∥ authTag ∥ ciphertext)` with a 12-byte iv
and a 16-byte GCM tag; `decryptString` base64-decodes, slices at offsets 12 and
28, and opens with the tag check. Plaintexts and raw buffers are byte lists
(`Nat`s below 256; the utf8 encode/decode at the string boundary is the
identity on byte sequences). The AES-256-GCM primitive itself is the external
`node:crypto` library: it is modelled as any keyed AEAD satisfying the
documented contract (round-trip correctness, 16-byte tags, length-preserving
ciphertexts, and sound authentication). -/

/-- The standard base64 alphabet used by `Buffer.toString('base64')`. -/
def base64Chars : List Char :=
  ['A', 'B', 'C', 'D', 'E', 'F', 'G', 'H', 'I', 'J', 'K', 'L', 'M',
   'N', 'O', 'P', 'Q', 'R', 'S', 'T', 'U', 'V', 'W', 'X', 'Y', 'Z',
   'a', 'b', 'c', 'd', 'e', 'f', 'g', 'h', 'i', 'j', 'k', 'l', 'm',
   'n', 'o', 'p', 'q', 'r', 's', 't', 'u', 'v', 'w', 'x', 'y', 'z',
   '0', '1', '2', '3', '4', '5', '6', '7', '8', '9', '+', '/']

/-- The character encoding a 6-bit value. -/
def sextetToChar (n : Nat) : Char :=
  base64Chars.getD n 'A'

/-- The 6-bit value of an alphabet character (`none` for `=` padding and any
other non-alphabet character, which Node's base64 decoder skips). -/
def charToSextet (c : Char) : Option Nat :=
  base64Chars.findIdx? (fun d => d == c)

/-- `Buffer.toString('base64')`: encode three bytes as four characters; a
two-byte remainder as three characters plus `=`; a one-byte remainder as two
characters plus `==`. -/
def base64EncodeChars : List Nat → List Char
  | b1 :: b2 :: b3 :: rest =>
    sextetToChar (b1 / 4) :: sextetToChar ((b1 % 4) * 16 + b2 / 16) ::
      sextetToChar ((b2 % 16) * 4 + b3 / 64) :: sextetToChar (b3 % 64) ::
      base64EncodeChars rest
  | [b1, b2] =>
    [sextetToChar (b1 / 4), sextetToChar ((b1 % 4) * 16 + b2 / 16),
     sextetToChar ((b2 % 16) * 4), '=']
  | [b1] =>
    [sextetToChar (b1 / 4), sextetToChar ((b1 % 4) * 16), '=', '=']
  | [] => []

/-- `Buffer.toString('base64')` on a byte buffer. -/
def base64Encode (bs : List Nat) : String :=
  String.mk (base64EncodeChars bs)

/-- Repack a stream of 6-bit values into bytes, as `Buffer.from(_, 'base64')`
does: four sextets yield three bytes; a three-sextet remainder yields two
bytes, a two-sextet remainder one byte; trailing bits that do not fill a byte
are DISCARDED (Node does not reject non-canonical trailing bits). -/
def sextetsToBytes : List Nat → List Nat
  | s1 :: s2 :: s3 :: s4 :: rest =>
    (s1 * 4 + s2 / 16) :: ((s2 % 16) * 16 + s3 / 4) :: ((s3 % 4) * 64 + s4) ::
      sextetsToBytes rest
  | [s1, s2, s3] => [s1 * 4 + s2 / 16, (s2 % 16) * 16 + s3 / 4]
  | [s1, s2] => [s1 * 4 + s2 / 16]
  | [_] => []
  | [] => []

/-- `Buffer.from(token, 'base64')`: keep the 6-bit values of alphabet
characters (padding and foreign characters are skipped) and repack them into
bytes. -/
def base64Decode (s : String) : List Nat :=
  sextetsToBytes (s.toList.filterMap charToSextet)

/-- The keyed AEAD primitive behind `createCipheriv('aes-256-gcm', key, iv)` /
`createDecipheriv`, abstracted over the external `node:crypto` implementation:
`sealMsg iv m` returns `(ciphertext, authTag)` (the `update`/`final` output and
`getAuthTag()`); `openMsg iv tag ct` returns the plaintext, or `none` when
`final()` throws on tag-check failure. The contract fields are the documented
guarantees of the primitive: byte-valued outputs, 16-byte tags,
length-preserving ciphertexts, round-trip correctness, and sound
authentication (`openMsg` accepts `(ct, tag)` under `iv` only if that pair is
exactly what `seal` produces for the recovered plaintext). -/
structure GcmCipher where
  sealMsg : List Nat → List Nat → List Nat × List Nat
  openMsg : List Nat → List Nat → List Nat → Option (List Nat)
  sealMsg_bytes : ∀ iv m, (∀ b ∈ m, b < 256) →
    (∀ b ∈ (sealMsg iv m).1, b < 256) ∧ (∀ b ∈ (sealMsg iv m).2, b < 256)
  tag_len : ∀ iv m, (sealMsg iv m).2.length = 16
  ct_len : ∀ iv m, (sealMsg iv m).1.length = m.length
  sealMsg_open : ∀ iv m, openMsg iv (sealMsg iv m).2 (sealMsg iv m).1 = some m
  open_sound : ∀ iv tag ct m, openMsg iv tag ct = some m → sealMsg iv m = (ct, tag)

/-- `CryptoService.encryptString`: seal the value under a fresh 12-byte random
iv, then base64-encode `iv ∥ authTag ∥ ciphertext`. -/
def encryptString (g : GcmCipher) (iv value : List Nat) : String :=
  let sealed := g.sealMsg iv value
  base64Encode (iv ++ sealed.2 ++ sealed.1)

/-- `CryptoService.decryptString`: base64-decode, slice the iv at `[0,12)`, the
tag at `[12,28)` and the ciphertext from 28 on, then open (the tag check makes
the result optional). -/
def decryptString (g : GcmCipher) (token : String) : Option (List Nat) :=
  let raw := base64Decode token
  let iv := raw.take 12
  let authTag := (raw.drop 12).take 16
  let encrypted := raw.drop 28
  g.openMsg iv authTag encrypted

/-- Flip bit `k` of a byte value. -/
def flipBit (n k : Nat) : Nat :=
  n ^^^ 2 ^ k

/-- Flip bit `k` of the character at index `i` of a string (a single-bit
corruption of the transported token). -/
def flipBitInString (s : String) (i k : Nat) : String :=
  String.mk (s.toList.mapIdx
    (fun j c => if j = i then Char.ofNat (flipBit c.toNat k) else c))

/-- A concrete inhabitant of the AEAD contract, used to evaluate the framing
layer on closed inputs: the identity cipher with a constant all-zero 16-byte
tag. Every contract field holds, including sound authentication (every
`(ct, zeroTag)` pair is exactly the sealing of plaintext `ct`). -/
def idCipher : GcmCipher where
  sealMsg := fun _ m => (m, List.replicate 16 0)
  openMsg := fun _ tag ct => if tag = List.replicate 16 0 then some ct else none
  sealMsg_bytes := by
    intro iv m hm
    refine ⟨hm, ?_⟩
    intro b hb
    simp only [List.mem_replicate] at hb
    omega
  tag_len := by intro iv m; simp
  ct_len := by intro iv m; simp
  sealMsg_open := by intro iv m; simp
  open_sound := by
    intro iv tag ct m h
    simp only [] at h ⊢
    split_ifs at h with htag
    obtain rfl : ct = m := Option.some.inj h
    simp [htag]

/-- The non-token fields of a session document (id, principal, device
metadata, validity window, tombstone state): the frame that `refresh` must
leave untouched. -/
structure SessionFrame where
  id : String
  user : String
  ipAddress : String
  userAgent : String
  startedAt : Nat
  endsAt : Nat
  platform : PLATFORMS
  deletedAt : Option Nat
  isDeleted : Bool
deriving DecidableEq, Repr

/-- Project a session document onto its non-token frame. -/
def sessionFrame (s : SessionModel) : SessionFrame :=
  { id := s.id, user := s.user, ipAddress := s.ipAddress,
    userAgent := s.userAgent, startedAt := s.startedAt, endsAt := s.endsAt,
    platform := s.platform, deletedAt := s.deletedAt, isDeleted := s.isDeleted }

/-! ## Concrete evaluation fixtures -/

/-- The identity string map as a transport-crypto instance, for evaluating the
lifecycle functions on closed inputs. -/
def plainCrypto : CryptoModel where
  encryptString := fun s => s
  decryptString := fun s => s

/-- A live session document: stored pair `("a0", "r0")`, principal `u1`,
platform web, window `[0, 1000]`. -/
def sessionFixture : SessionModel where
  id := "s1"
  user := "u1"
  ipAddress := "127.0.0.1"
  userAgent := "ua"
  accessToken := "a0"
  refreshToken := "r0"
  startedAt := 0
  endsAt := 1000
  platform := .web
  deletedAt := none
  isDeleted := false

/-- A live session of the same principal on the mobile platform. -/
def sessionFixtureMobile : SessionModel :=
  { sessionFixture with
      id := "s2", platform := .mobile, accessToken := "am", refreshToken := "rm" }

/-- A store holding one web and one mobile session of principal `u1`. -/
def storeFixture : SessionStore :=
  [sessionFixture, sessionFixtureMobile]

/-- A JWT instance for refresh scenarios: the stored refresh token `r0`
verifies to the payload binding access token `a0`; signing embeds the
issuance time, so tokens issued at different instants differ. -/
def jwtFixture : JwtModel where
  signAccess := fun u n => "a@" ++ u.id ++ "@" ++ Nat.repr n
  signRefresh := fun u _ n => "r@" ++ u.id ++ "@" ++ Nat.repr n
  verifyAccess := fun _ => .error .tokenExpired
  verifyRefresh := fun tok =>
    if tok == "r0" then .ok ⟨⟨"u1"⟩, "a0"⟩ else .error .invalidSignature

/-- The refresh request presenting the stored pair of `sessionFixture`
(the transport crypto is the identity instance). -/
def refreshFixture : RefreshSessionModel :=
  ⟨"a0", "r0", "s1"⟩

/-- A JWT instance whose freshly signed tokens do not depend on the principal:
at instant 5 it signs the pair `("a1", "r1")`, at any other instant
`("a2", "r2")`; `r0` still verifies to the payload binding `a0`. -/
def jwtConstFixture : JwtModel where
  signAccess := fun _ n => if n == 5 then "a1" else "a2"
  signRefresh := fun _ _ n => if n == 5 then "r1" else "r2"
  verifyAccess := fun _ => .error .tokenExpired
  verifyRefresh := fun tok =>
    if tok == "r0" then .ok ⟨⟨"u1"⟩, "a0"⟩ else .error .invalidSignature

/-- A JWT instance whose refresh verification succeeds (valid signature,
within TTL) with an embedded access-token back-reference `aEmbedded`. -/
def jwtEmbedFixture : JwtModel where
  signAccess := fun u n => "a@" ++ u.id ++ "@" ++ Nat.repr n
  signRefresh := fun u _ n => "r@" ++ u.id ++ "@" ++ Nat.repr n
  verifyAccess := fun _ => .error .tokenExpired
  verifyRefresh := fun _ => .ok ⟨⟨"u1"⟩, "aEmbedded"⟩

/-- An identity lookup with exactly one user: identifier `alice`, id `u1`,
stored hash `hash1`; `bcryptCompare` accepts exactly the password `pw`
against that hash. -/
def idmFixture : IdentityModel where
  findUserByCredentials := fun ident =>
    if ident == "alice" then some ⟨"u1", "hash1"⟩ else none
  findUserById := fun uid => if uid == "u1" then some ⟨"u1"⟩ else none
  bcryptCompare := fun plain hash => plain == "pw" && hash == "hash1"

/-- A sign-in request with the correct credentials of `alice` on web. -/
def signInFixture : SignInModel :=
  ⟨"alice", "pw", "127.0.0.1", "ua", .web⟩

/-- A grant-set fixture: one role including `doc.READ` and excluding
`doc.WRITE`; the user additionally includes `doc.LIST`; no administrator
access. -/
def credsFixture : UserAuthorizationCredentialsModel :=
  ⟨[⟨["doc.READ"], ["doc.WRITE"]⟩], ["doc.LIST"], [], false⟩

/-! ## Store-operation lemmas -/

/-- Updating the token pair of a session leaves it findable under the same id,
with only the two token fields rewritten. -/
theorem findSessionById_updateSessionTokens (store : SessionStore)
    (id a r : String) :
    findSessionById (updateSessionTokens store id a r) id =
      (findSessionById store id).map
        (fun s => { s with accessToken := a, refreshToken := r }) := by
  induction store with
  | nil => rfl
  | cons s rest ih =>
    by_cases h : (s.id == id && notSoftDeleted s) = true
    · simp [updateSessionTokens, findSessionById, notSoftDeleted, List.find?_cons,
        h, Bool.and_eq_true] at h ⊢
      simp [h]
    · simp only [updateSessionTokens, if_neg h, findSessionById, List.find?_cons] at ih ⊢
      simp [h] at ih ⊢
      exact ih

/-- The unconditional token update never changes any session's non-token
frame (id, principal, device metadata, window, tombstone state). -/
theorem sessionFrame_updateSessionTokens (store : SessionStore)
    (id a r : String) :
    (updateSessionTokens store id a r).map sessionFrame =
      store.map sessionFrame := by
  induction store with
  | nil => rfl
  | cons s rest ih =>
    by_cases h : (s.id == id && notSoftDeleted s) = true
    · simp only [updateSessionTokens, if_pos h, List.map_cons]
      rfl
    · simp only [updateSessionTokens, if_neg h, List.map_cons, ih]

/-- Tombstoning a session leaves it findable under the same id, with only
`deletedAt` set (the soft-delete middleware filters on `isDeleted`, which
`deleteSessionById` does not touch). -/
theorem findSessionById_deleteSessionById (store : SessionStore)
    (id : String) (now : Nat) :
    findSessionById (deleteSessionById store id now).1 id =
      (findSessionById store id).map (fun s => { s with deletedAt := some now }) := by
  induction store with
  | nil => rfl
  | cons s rest ih =>
    by_cases h : (s.id == id && notSoftDeleted s) = true
    · simp [deleteSessionById, findSessionById, notSoftDeleted, List.find?_cons,
        h, Bool.and_eq_true] at h ⊢
      simp [h]
    · simp only [deleteSessionById, if_neg h, findSessionById, List.find?_cons] at ih ⊢
      simp [h] at ih ⊢
      exact ih

/-- After `deleteMany({ user, platform })` no session of that user on that
platform remains. -/
theorem filter_deleteSessionsByUserIdAndPlatform (store : SessionStore)
    (u : String) (p : PLATFORMS) :
    (deleteSessionsByUserIdAndPlatform store u p).filter
      (fun s => s.user == u && s.platform == p) = [] := by
  induction store with
  | nil => rfl
  | cons s rest ih =>
    by_cases h : (s.user == u && s.platform == p) = true
    · simp only [deleteSessionsByUserIdAndPlatform, List.filter_cons] at ih ⊢
      simp [h, ih]
    · simp only [deleteSessionsByUserIdAndPlatform, List.filter_cons] at ih ⊢
      simp [h, ih]

/-- `deleteMany({ user, platform })` keeps every session that is not of that
user on that platform. -/
theorem mem_deleteSessionsByUserIdAndPlatform (store : SessionStore)
    (u : String) (p : PLATFORMS) (s : SessionModel) (hs : s ∈ store)
    (hkeep : ¬(s.user = u ∧ s.platform = p)) :
    s ∈ deleteSessionsByUserIdAndPlatform store u p := by
  refine List.mem_filter.mpr ⟨hs, ?_⟩
  simp only [Bool.not_eq_true']
  by_cases h1 : s.user = u
  · by_cases h2 : s.platform = p
    · exact absurd ⟨h1, h2⟩ hkeep
    · simp [h1, h2]
  · simp [h1]

/-! ## Base64 and crypto-framing lemmas -/

theorem charToSextet_sextetToChar_fin :
    ∀ k : Fin 64, charToSextet (sextetToChar k.val) = some k.val := by decide

theorem charToSextet_sextetToChar (k : Nat) (hk : k < 64) :
    charToSextet (sextetToChar k) = some k :=
  charToSextet_sextetToChar_fin ⟨k, hk⟩

theorem charToSextet_padChar : charToSextet '=' = none := by decide

theorem sextetsToBytes_base64EncodeChars (bs : List Nat)
    (h : ∀ b ∈ bs, b < 256) :
    sextetsToBytes ((base64EncodeChars bs).filterMap charToSextet) = bs := by
  induction bs using base64EncodeChars.induct with
  | case1 b1 b2 b3 rest ih =>
    have hb1 : b1 < 256 := h b1 (by simp)
    have hb2 : b2 < 256 := h b2 (by simp)
    have hb3 : b3 < 256 := h b3 (by simp)
    simp only [base64EncodeChars, List.filterMap_cons,
      charToSextet_sextetToChar _ (by omega : b1 / 4 < 64),
      charToSextet_sextetToChar _ (by omega : (b1 % 4) * 16 + b2 / 16 < 64),
      charToSextet_sextetToChar _ (by omega : (b2 % 16) * 4 + b3 / 64 < 64),
      charToSextet_sextetToChar _ (by omega : b3 % 64 < 64)]
    simp only [sextetsToBytes]
    rw [ih (by intro b hb; exact h b (by simp [hb]))]
    simp only [List.cons.injEq]
    refine ⟨by omega, by omega, by omega, trivial⟩
  | case2 b1 b2 =>
    have hb1 : b1 < 256 := h b1 (by simp)
    have hb2 : b2 < 256 := h b2 (by simp)
    simp only [base64EncodeChars, List.filterMap_cons,
      charToSextet_sextetToChar _ (by omega : b1 / 4 < 64),
      charToSextet_sextetToChar _ (by omega : (b1 % 4) * 16 + b2 / 16 < 64),
      charToSextet_sextetToChar _ (by omega : (b2 % 16) * 4 < 64),
      charToSextet_padChar]
    simp only [List.filterMap_nil, sextetsToBytes]
    simp only [List.cons.injEq]
    refine ⟨by omega, by omega, trivial⟩
  | case3 b1 =>
    have hb1 : b1 < 256 := h b1 (by simp)
    simp only [base64EncodeChars, List.filterMap_cons,
      charToSextet_sextetToChar _ (by omega : b1 / 4 < 64),
      charToSextet_sextetToChar _ (by omega : (b1 % 4) * 16 < 64),
      charToSextet_padChar]
    simp only [List.filterMap_nil, sextetsToBytes]
    simp only [List.cons.injEq]
    refine ⟨by omega, trivial⟩
  | case4 => rfl

theorem base64Decode_base64Encode (bs : List Nat) (h : ∀ b ∈ bs, b < 256) :
    base64Decode (base64Encode bs) = bs := by
  have : (base64Encode bs).toList = base64EncodeChars bs := rfl
  rw [base64Decode, this, sextetsToBytes_base64EncodeChars bs h]


/-- `decryptString` inverts `encryptString` for every AEAD primitive
satisfying the `node:crypto` contract: the 12/16 slicing offsets match the
12-byte iv and 16-byte tag, and base64 decoding inverts encoding. -/
theorem decryptString_encryptString (g : GcmCipher) (iv m : List Nat)
    (hiv12 : iv.length = 12) (hivb : ∀ b ∈ iv, b < 256)
    (hm : ∀ b ∈ m, b < 256) :
    decryptString g (encryptString g iv m) = some m := by
  have hbytes := g.sealMsg_bytes iv m hm
  have htag : (g.sealMsg iv m).2.length = 16 := g.tag_len iv m
  have hraw : ∀ b ∈ iv ++ (g.sealMsg iv m).2 ++ (g.sealMsg iv m).1, b < 256 := by
    intro b hb
    rcases List.mem_append.mp hb with hb | hb
    · rcases List.mem_append.mp hb with hb | hb
      · exact hivb b hb
      · exact hbytes.2 b hb
    · exact hbytes.1 b hb
  rw [decryptString, encryptString]
  rw [base64Decode_base64Encode _ hraw]
  rw [List.append_assoc]
  rw [List.take_left' hiv12]
  rw [List.drop_left' hiv12]
  rw [List.take_left' htag]
  rw [show (28 : Nat) = 12 + 16 from rfl, ← List.drop_drop, List.drop_left' hiv12,
      List.drop_left' htag]
  exact g.sealMsg_open iv m

/-! ## Characterization of `refresh` runs -/

/-- A successful verify phase pins down every check it performed: the three
values were present, the session was found and unexpired, both presented
tokens equalled the stored pair, and the refresh token verified. -/
theorem refreshVerifyPhase_ok (jwt : JwtModel) (crypto : CryptoModel)
    (store : SessionStore) (m : RefreshSessionModel) (now : Nat)
    (session : SessionModel) (decoded : RefreshTokenPayload)
    (h : refreshVerifyPhase jwt crypto store m now = .ok (session, decoded)) :
    findSessionById store (crypto.decryptString m.sessionId) = some session ∧
    ¬(session.endsAt < now) ∧
    session.accessToken = crypto.decryptString m.accessToken ∧
    session.refreshToken = crypto.decryptString m.refreshToken ∧
    verifyRefreshToken jwt (crypto.decryptString m.refreshToken)
      (crypto.decryptString m.accessToken) = .ok decoded ∧
    m.sessionId ≠ "" ∧ m.accessToken ≠ "" ∧ m.refreshToken ≠ "" := by
  simp only [refreshVerifyPhase] at h
  by_cases c1 : (m.sessionId == "") = true
  · rw [if_pos c1] at h; exact absurd h (by simp)
  rw [if_neg c1] at h
  by_cases c2 : (m.accessToken == "") = true
  · rw [if_pos c2] at h; exact absurd h (by simp)
  rw [if_neg c2] at h
  by_cases c3 : (m.refreshToken == "") = true
  · rw [if_pos c3] at h; exact absurd h (by simp)
  rw [if_neg c3] at h
  cases hfind : findSessionById store (crypto.decryptString m.sessionId) with
  | none => rw [hfind] at h; exact absurd h (by simp)
  | some s0 =>
    rw [hfind] at h
    dsimp only at h
    by_cases c5 : s0.endsAt < now
    · rw [if_pos c5] at h; exact absurd h (by simp)
    rw [if_neg c5] at h
    by_cases c6 : (s0.accessToken != crypto.decryptString m.accessToken) = true
    · rw [if_pos c6] at h; exact absurd h (by simp)
    rw [if_neg c6] at h
    by_cases c7 : (s0.refreshToken != crypto.decryptString m.refreshToken) = true
    · rw [if_pos c7] at h; exact absurd h (by simp)
    rw [if_neg c7] at h
    cases hv : verifyRefreshToken jwt (crypto.decryptString m.refreshToken)
        (crypto.decryptString m.accessToken) with
    | error e => rw [hv] at h; exact absurd h (by simp)
    | ok dec =>
      rw [hv] at h
      injection h with h2
      injection h2 with hs hd
      subst hs; subst hd
      refine ⟨rfl, c5, ?_, ?_, rfl, ?_, ?_, ?_⟩
      · simpa [bne_iff_ne, not_not] using c6
      · simpa [bne_iff_ne, not_not] using c7
      · simpa using c1
      · simpa using c2
      · simpa using c3

/-- A successful `refresh` run decomposes into a successful verify phase and
the commit that follows: the new pair is signed for the decoded principal and
written with the unconditional update, and the result is built under the
loaded session's id. -/
theorem refresh_ok_decompose (jwt : JwtModel) (crypto : CryptoModel)
    (store : SessionStore) (m : RefreshSessionModel) (now : Nat)
    (store2 : SessionStore) (creds : AuthenticationCredentialsModel)
    (h : refresh jwt crypto store m now = (store2, .ok creds)) :
    ∃ session decoded,
      refreshVerifyPhase jwt crypto store m now = .ok (session, decoded) ∧
      store2 = updateSessionTokens store session.id
        (jwt.signAccess decoded.user now)
        (jwt.signRefresh decoded.user (jwt.signAccess decoded.user now) now) ∧
      creds = generateAuthenticationCredentialsModel crypto decoded.user
        (jwt.signAccess decoded.user now)
        (jwt.signRefresh decoded.user (jwt.signAccess decoded.user now) now)
        session.id := by
  unfold refresh at h
  cases hv : refreshVerifyPhase jwt crypto store m now with
  | error e =>
    rw [hv] at h
    exact absurd (congrArg Prod.snd h) (by simp)
  | ok pair =>
    obtain ⟨session, decoded⟩ := pair
    rw [hv] at h
    simp only [refreshCommitPhase] at h
    have h1 := congrArg Prod.fst h
    have h2 := congrArg Prod.snd h
    simp only at h1 h2
    injection h2 with h2
    exact ⟨session, decoded, rfl, h1.symm, h2.symm⟩

/-! ## Claim theorems -/

/-- Claim C1: the claim states the token-pair replacement is an atomic
compare-and-swap so that of two concurrent refresh calls presenting the same
valid triple exactly one succeeds and the other fails with
InvalidRefreshToken. The code's `updateSessionTokens` is an unconditional
`findByIdAndUpdate`: under the read-read-write-write interleaving both calls
succeed (`.ok`), and the final stored pair is the second caller's, silently
overwriting the pair the first caller committed and was handed. -/
theorem refresh_race_both_succeed :
    (refreshInterleaved jwtFixture plainCrypto storeFixture refreshFixture
        refreshFixture 5 6).1 =
      .ok ⟨"a@u1@5", "r@u1@5", "s1", ⟨"u1"⟩⟩ ∧
    (refreshInterleaved jwtFixture plainCrypto storeFixture refreshFixture
        refreshFixture 5 6).2.1 =
      .ok ⟨"a@u1@6", "r@u1@6", "s1", ⟨"u1"⟩⟩ ∧
    findSessionById
      (refreshInterleaved jwtFixture plainCrypto storeFixture refreshFixture
        refreshFixture 5 6).2.2 "s1" =
      some { sessionFixture with accessToken := "a@u1@6", refreshToken := "r@u1@6" } ∧
    ("a@u1@5" : String) ≠ "a@u1@6" := by
  refine ⟨rfl, rfl, rfl, by decide⟩

/-- Claim C3 (counterexample): flipping bit 1 of the character at index 38 of
`encrypt([0x00])` (under the identity AEAD instance, iv = 12 zero bytes)
changes the token — the final base64 character `A` becomes `C` — yet `decrypt`
returns the original plaintext, because the flipped bit lies in the two
trailing padding bits that `Buffer.from(_, 'base64')` discards. -/
theorem token_bit_flip_undetected :
    flipBitInString (encryptString idCipher (List.replicate 12 0) [0]) 38 1 ≠
      encryptString idCipher (List.replicate 12 0) [0] ∧
    decryptString idCipher
      (flipBitInString (encryptString idCipher (List.replicate 12 0) [0]) 38 1) =
      some [0] := by
  refine ⟨by decide, by decide⟩

/-- Claim C3 (amended): for every plaintext, `decrypt(encrypt(s)) = s` (for
any AEAD primitive meeting the `node:crypto` contract); but the tamper half
fails — there are single-bit flips of an `encrypt` output, landing in the
unused trailing bits of the final base64 character, after which `decrypt`
still succeeds and returns the plaintext. -/
theorem encryptString_roundtrip_and_padding_flip :
    (∀ (g : GcmCipher) (iv m : List Nat),
        iv.length = 12 → (∀ b ∈ iv, b < 256) → (∀ b ∈ m, b < 256) →
        decryptString g (encryptString g iv m) = some m) ∧
    (∃ (m : List Nat) (i k : Nat),
        flipBitInString (encryptString idCipher (List.replicate 12 0) m) i k ≠
          encryptString idCipher (List.replicate 12 0) m ∧
        decryptString idCipher
          (flipBitInString (encryptString idCipher (List.replicate 12 0) m) i k) =
          some m) := by
  refine ⟨fun g iv m h1 h2 h3 => decryptString_encryptString g iv m h1 h2 h3,
          ⟨[0], 38, 1, by decide, by decide⟩⟩

/-- Witness for the round-trip half of the amended C3 theorem at a concrete
cipher, iv and plaintext. -/
theorem encryptString_roundtrip_witness :
    decryptString idCipher
      (encryptString idCipher (List.replicate 12 0) [7, 200]) = some [7, 200] :=
  encryptString_roundtrip_and_padding_flip.1 idCipher (List.replicate 12 0)
    [7, 200] (by decide) (by decide) (by decide)

/-- Claim C4 (counterexample): after a successful refresh, replaying the
exact same triple fails — but with `INVALID_ACCESS_TOKEN`, not the claimed
`INVALID_REFRESH_TOKEN`: the access-token equality check at line 202 runs
before the refresh-token check at line 203. -/
theorem refresh_replay_error_code :
    (refresh jwtFixture plainCrypto storeFixture refreshFixture 5).2 =
      .ok ⟨"a@u1@5", "r@u1@5", "s1", ⟨"u1"⟩⟩ ∧
    (refresh jwtFixture plainCrypto
        (refresh jwtFixture plainCrypto storeFixture refreshFixture 5).1
        refreshFixture 5).2 =
      .error ⟨"INVALID_ACCESS_TOKEN", 401⟩ ∧
    (⟨"INVALID_ACCESS_TOKEN", 401⟩ : HttpException) ≠
      ⟨"INVALID_REFRESH_TOKEN", 401⟩ := by
  refine ⟨rfl, rfl, by decide⟩

/-- After a successful lookup of a session, updating its token pair leaves it
findable under the same (decrypted) key with exactly the two token fields
rewritten. -/
theorem findSessionById_after_refresh_update (crypto : CryptoModel)
    (store : SessionStore) (m : RefreshSessionModel) (session : SessionModel)
    (a r : String)
    (hfind : findSessionById store (crypto.decryptString m.sessionId) =
      some session) :
    findSessionById (updateSessionTokens store session.id a r)
        (crypto.decryptString m.sessionId) =
      some { session with accessToken := a, refreshToken := r } := by
  have hsid : session.id = crypto.decryptString m.sessionId := by
    have := List.find?_some hfind
    simp only [Bool.and_eq_true, beq_iff_eq] at this
    exact this.1
  have hfind' : findSessionById store session.id = some session := by
    rw [hsid]; exact hfind
  rw [← hsid, findSessionById_updateSessionTokens, hfind']
  rfl

/-- Claim C4 (amended): for every session on which a refresh call has just
succeeded, repeating the exact same refresh call with the old, now-superseded
triple fails with `INVALID_ACCESS_TOKEN` (the access-token equality check
precedes the refresh-token one), provided the freshly issued access token
differs from the superseded one. -/
theorem refresh_replay_fails_invalid_access (jwt : JwtModel)
    (crypto : CryptoModel) (store : SessionStore) (m : RefreshSessionModel)
    (now : Nat) (store2 : SessionStore) (creds : AuthenticationCredentialsModel)
    (h : refresh jwt crypto store m now = (store2, .ok creds))
    (hfresh : ∀ u : UserModel,
      jwt.signAccess u now ≠ crypto.decryptString m.accessToken) :
    (refresh jwt crypto store2 m now).2 = .error ⟨"INVALID_ACCESS_TOKEN", 401⟩ := by
  obtain ⟨session, decoded, hv, hstore2, -⟩ := refresh_ok_decompose jwt crypto
    store m now store2 creds h
  obtain ⟨hfind, hend, hacc, href, hvrt, hne1, hne2, hne3⟩ :=
    refreshVerifyPhase_ok jwt crypto store m now session decoded hv
  have hfind2 : findSessionById store2 (crypto.decryptString m.sessionId) =
      some { session with
        accessToken := jwt.signAccess decoded.user now,
        refreshToken := jwt.signRefresh decoded.user
          (jwt.signAccess decoded.user now) now } := by
    rw [hstore2]
    exact findSessionById_after_refresh_update crypto store m session _ _ hfind
  simp only [refresh, refreshVerifyPhase]
  rw [if_neg (by simpa using hne1), if_neg (by simpa using hne2),
      if_neg (by simpa using hne3), hfind2]
  dsimp only
  rw [if_neg (by simpa using hend)]
  rw [if_pos (by
    simp only [bne_iff_ne, ne_eq]
    exact hfresh decoded.user)]

/-- Witness for the amended C4 theorem: on the fixture store, the replayed
call after a successful rotation is rejected with `INVALID_ACCESS_TOKEN`. -/
theorem refresh_replay_fails_witness :
    (refresh jwtConstFixture plainCrypto
        (refresh jwtConstFixture plainCrypto storeFixture refreshFixture 5).1
        refreshFixture 5).2 = .error ⟨"INVALID_ACCESS_TOKEN", 401⟩ :=
  refresh_replay_fails_invalid_access jwtConstFixture plainCrypto storeFixture
    refreshFixture 5
    (refresh jwtConstFixture plainCrypto storeFixture refreshFixture 5).1
    ⟨"a1", "r1", "s1", ⟨"u1"⟩⟩ rfl
    (by intro u; show ("a1" : String) ≠ "a0"; decide)

/-- Claim C5: within `verifyRefreshToken`, once the presented tokens matched
the stored pair: a TTL violation of the refresh token indeed fails with
`EXPIRED_REFRESH_TOKEN`; but on a token that verifies (valid signature,
within TTL) whose embedded access-token back-reference differs from the
presented access token, the `try` body throws `INVALID_REFRESH_TOKEN` and the
blanket `catch` swallows it, so the call reports `EXPIRED_REFRESH_TOKEN`
instead of the intended (and claimed) `INVALID_REFRESH_TOKEN`. -/
theorem verifyRefreshToken_mismatch_masked :
    jwtEmbedFixture.verifyRefresh "r0" = .ok ⟨⟨"u1"⟩, "aEmbedded"⟩ ∧
    ("aEmbedded" : String) ≠ "aPresented" ∧
    verifyRefreshTokenTryBlock jwtEmbedFixture "r0" "aPresented" =
      .error (.httpError ⟨"INVALID_REFRESH_TOKEN", 401⟩) ∧
    verifyRefreshToken jwtEmbedFixture "r0" "aPresented" =
      .error ⟨"EXPIRED_REFRESH_TOKEN", 401⟩ ∧
    (∀ (jwt : JwtModel) (r a : String),
      jwt.verifyRefresh r = .error .tokenExpired →
      verifyRefreshToken jwt r a = .error ⟨"EXPIRED_REFRESH_TOKEN", 401⟩) := by
  refine ⟨rfl, by decide, rfl, rfl, ?_⟩
  intro jwt r a hr
  rw [verifyRefreshToken, verifyRefreshTokenTryBlock, hr]

/-- Claim C6: after every completed signIn, the resulting store holds at most
one session for the signed-in (principal, platform) pair — the old ones were
hard-deleted and exactly one new one was created — and every session of the
same principal on a different platform is still present, untouched. -/
theorem signIn_single_session_per_platform (idm : IdentityModel)
    (jwt : JwtModel) (crypto : CryptoModel) (store : SessionStore)
    (m : SignInModel) (now : Nat) (newSessionId : String) (maxAgeMs : Nat)
    (store2 : SessionStore) (creds : AuthenticationCredentialsModel)
    (h : signIn idm jwt crypto store m now newSessionId maxAgeMs =
      (store2, .ok creds)) :
    (store2.filter
      (fun s => s.user == creds.user.id && s.platform == m.platform)).length ≤ 1 ∧
    (∀ s ∈ store, s.user = creds.user.id → s.platform ≠ m.platform →
      s ∈ store2) := by
  simp only [signIn] at h
  cases h1 : getUserByCredentials idm m.identifier with
  | error e => rw [h1] at h; exact absurd (congrArg Prod.snd h) (by simp)
  | ok creds0 =>
    rw [h1] at h
    dsimp only at h
    by_cases h2 : (!idm.bcryptCompare m.password creds0.password) = true
    · rw [if_pos h2] at h; exact absurd (congrArg Prod.snd h) (by simp)
    rw [if_neg h2] at h
    cases h3 : getUserById idm creds0.id with
    | error e => rw [h3] at h; exact absurd (congrArg Prod.snd h) (by simp)
    | ok userModel =>
      rw [h3] at h
      simp only [createSession, requestToSessionModel] at h
      have h4 := congrArg Prod.fst h
      have h5 := congrArg Prod.snd h
      simp only at h4 h5
      injection h5 with h5
      subst h5
      simp only [generateAuthenticationCredentialsModel]
      constructor
      · rw [← h4, List.filter_append, filter_deleteSessionsByUserIdAndPlatform,
          List.nil_append]
        calc (List.filter _ _).length ≤ _ := List.length_filter_le _ _
          _ ≤ 1 := by simp
      · intro s hs hu hp
        rw [← h4]
        refine List.mem_append_left _ ?_
        exact mem_deleteSessionsByUserIdAndPlatform store userModel.id
          m.platform s hs (fun hc => hp hc.2)

/-- Witness for the C6 theorem: signing in `alice` on web against the fixture
store (which already holds a live web session and a live mobile session of
`u1`) leaves at most one (u1, web) session. -/
theorem signIn_single_session_witness :
    ((signIn idmFixture jwtFixture plainCrypto storeFixture signInFixture 5
        "s9" 3600000).1.filter
      (fun s => s.user == "u1" && s.platform == PLATFORMS.web)).length ≤ 1 := by
  have h := signIn_single_session_per_platform idmFixture jwtFixture plainCrypto
    storeFixture signInFixture 5 "s9" 3600000
    (signIn idmFixture jwtFixture plainCrypto storeFixture signInFixture 5
      "s9" 3600000).1
    ⟨"a@u1@5", "r@u1@5", "s9", ⟨"u1"⟩⟩ rfl
  exact h.1

/-- Claim C7: a successful refresh changes nothing but the target session's
stored token pair — every document's non-token frame (id, principal, clientIp,
userAgent, platform, startedAt, endsAt, tombstone state) is unchanged — and
the result is returned under the same session id (hence the same, unchanged
`endsAt`), with the stored pair now being the freshly signed one. -/
theorem refresh_frame_preserved (jwt : JwtModel) (crypto : CryptoModel)
    (store : SessionStore) (m : RefreshSessionModel) (now : Nat)
    (store2 : SessionStore) (creds : AuthenticationCredentialsModel)
    (h : refresh jwt crypto store m now = (store2, .ok creds)) :
    store2.map sessionFrame = store.map sessionFrame ∧
    ∃ (session : SessionModel) (decoded : RefreshTokenPayload),
      findSessionById store (crypto.decryptString m.sessionId) = some session ∧
      creds.sessionId = crypto.encryptString session.id ∧
      findSessionById store2 (crypto.decryptString m.sessionId) =
        some { session with
          accessToken := jwt.signAccess decoded.user now,
          refreshToken := jwt.signRefresh decoded.user
            (jwt.signAccess decoded.user now) now } := by
  obtain ⟨session, decoded, hv, hstore2, hcreds⟩ := refresh_ok_decompose jwt
    crypto store m now store2 creds h
  obtain ⟨hfind, -, -, -, -, -, -, -⟩ :=
    refreshVerifyPhase_ok jwt crypto store m now session decoded hv
  refine ⟨?_, session, decoded, hfind, ?_, ?_⟩
  · rw [hstore2]
    exact sessionFrame_updateSessionTokens store session.id _ _
  · rw [hcreds]
    rfl
  · rw [hstore2]
    exact findSessionById_after_refresh_update crypto store m session _ _ hfind

/-- Witness for the C7 theorem: the fixture rotation keeps both documents'
frames and returns the result under session id `s1`. -/
theorem refresh_frame_preserved_witness :
    (refresh jwtFixture plainCrypto storeFixture refreshFixture 5).1.map
        sessionFrame = storeFixture.map sessionFrame := by
  have h := refresh_frame_preserved jwtFixture plainCrypto storeFixture
    refreshFixture 5
    (refresh jwtFixture plainCrypto storeFixture refreshFixture 5).1
    ⟨"a@u1@5", "r@u1@5", "s1", ⟨"u1"⟩⟩ rfl
  exact h.1

/-- Claim C8 (counterexample): on the fixture identity provider, sign-in with
an unknown identifier fails with `INVALID_CREDENTIALS` at HTTP status 404
(thrown by `IdentityService.getUserByCredentials`), while sign-in with a known
identifier and wrong secret fails with `INVALID_CREDENTIALS` at 401 — the two
errors are distinguishable, contradicting the claimed identical,
indistinguishable error. -/
theorem signIn_enumeration_counterexample :
    (signIn idmFixture jwtFixture plainCrypto storeFixture
        ⟨"bob", "pw", "127.0.0.1", "ua", .web⟩ 5 "s9" 3600000).2 =
      .error ⟨"INVALID_CREDENTIALS", 404⟩ ∧
    (signIn idmFixture jwtFixture plainCrypto storeFixture
        ⟨"alice", "wrong", "127.0.0.1", "ua", .web⟩ 5 "s9" 3600000).2 =
      .error ⟨"INVALID_CREDENTIALS", 401⟩ ∧
    (⟨"INVALID_CREDENTIALS", 404⟩ : HttpException) ≠
      ⟨"INVALID_CREDENTIALS", 401⟩ :=
  ⟨rfl, rfl, by decide⟩

/-- Claim C8 (amended): both failure causes produce the error message
`INVALID_CREDENTIALS` and leave the store untouched (no session row is
created), but with different HTTP statuses — 404 for an unknown identifier
(raised inside `IdentityService.getUserByCredentials`), 401 for a known
identifier with a wrong secret — so the two causes are distinguishable by
status. -/
theorem signIn_invalid_credentials_distinct_status (idm : IdentityModel)
    (jwt : JwtModel) (crypto : CryptoModel) (store : SessionStore)
    (m : SignInModel) (now : Nat) (newSessionId : String) (maxAgeMs : Nat) :
    (idm.findUserByCredentials m.identifier = none →
      signIn idm jwt crypto store m now newSessionId maxAgeMs =
        (store, .error ⟨"INVALID_CREDENTIALS", 404⟩)) ∧
    (∀ u, idm.findUserByCredentials m.identifier = some u →
      idm.bcryptCompare m.password u.password = false →
      signIn idm jwt crypto store m now newSessionId maxAgeMs =
        (store, .error ⟨"INVALID_CREDENTIALS", 401⟩)) := by
  constructor
  · intro hnone
    simp only [signIn, getUserByCredentials, hnone]
  · intro u hu hbc
    simp only [signIn, getUserByCredentials, hu, hbc]
    rfl

/-- Witness for the amended C8 theorem at the fixture identity provider. -/
theorem signIn_invalid_credentials_witness :
    signIn idmFixture jwtFixture plainCrypto storeFixture
        ⟨"bob", "pw", "127.0.0.1", "ua", PLATFORMS.web⟩ 5 "s9" 3600000 =
      (storeFixture, .error ⟨"INVALID_CREDENTIALS", 404⟩) :=
  (signIn_invalid_credentials_distinct_status idmFixture jwtFixture plainCrypto
    storeFixture ⟨"bob", "pw", "127.0.0.1", "ua", .web⟩ 5 "s9" 3600000).1 rfl

/-- Claim C9: for a non-empty session id, signOut fails with
`SESSION_NOT_FOUND` exactly when the session is absent; when it is present —
live, expired or already tombstoned alike — signOut succeeds and writes the
tombstone, and repeating signOut on the now-terminal session succeeds again
(idempotent), because `deleteSessionById` writes only `deletedAt` while the
lookup filters on the untouched `isDeleted` flag. -/
theorem signOut_spec (store : SessionStore) (sessionId : String)
    (now now2 : Nat) (hid : sessionId ≠ "") :
    ((signOut store sessionId now).2 = .error ⟨"SESSION_NOT_FOUND", 401⟩ ↔
      findSessionById store sessionId = none) ∧
    (∀ s, findSessionById store sessionId = some s →
      (signOut store sessionId now).2 = .ok () ∧
      findSessionById (signOut store sessionId now).1 sessionId =
        some { s with deletedAt := some now } ∧
      (signOut (signOut store sessionId now).1 sessionId now2).2 = .ok ()) := by
  have hbid : (sessionId == "") = false := by simp [hid]
  constructor
  · constructor
    · intro hres
      by_contra hne
      obtain ⟨s, hs⟩ := Option.ne_none_iff_exists'.mp hne
      simp only [signOut, hbid, hs] at hres
      exact absurd hres (by simp)
    · intro hnone
      simp [signOut, hbid, hnone]
  · intro s hs
    have htomb : findSessionById (deleteSessionById store sessionId now).1
        sessionId = some { s with deletedAt := some now } := by
      rw [findSessionById_deleteSessionById, hs]
      rfl
    refine ⟨?_, ?_, ?_⟩
    · simp [signOut, hbid, hs]
    · simp only [signOut, hbid, hs, Bool.false_eq_true, if_false]
      exact htomb
    · simp [signOut, hbid, hs, htomb]

/-- Witness for the C9 theorem: tombstoning `s1` in the fixture store and
signing out a second time still succeeds. -/
theorem signOut_idempotent_witness :
    (signOut (signOut storeFixture "s1" 7).1 "s1" 8).2 = .ok () :=
  ((signOut_spec storeFixture "s1" 7 8 (by decide)).2 sessionFixture rfl).2.2

/-- Claim C10: in the guard, once the presented access token equals the
session's stored token, every cryptographic verification failure — expired
TTL, invalid signature, malformed token alike — is reported as the single
code `EXPIRED_ACCESS_TOKEN` (the blanket catch around `verifyAccessToken`);
and `INVALID_ACCESS_TOKEN` can only arise from a non-`Bearer` Authorization
header or from the stored-token equality check, so the interface never
distinguishes an invalid-signature token from an expired one. -/
theorem guard_error_code_channels (jwt : JwtModel) (crypto : CryptoModel)
    (store : SessionStore) (headers : RequestHeaders) (cookie : String)
    (now : Nat) :
    (∀ accessToken sessionId session e,
        getAccessToken crypto headers = .ok accessToken →
        getSessionId crypto cookie = .ok sessionId →
        findSessionById store sessionId = some session →
        ¬(session.endsAt < now) →
        session.accessToken = accessToken →
        jwt.verifyAccess accessToken = .error e →
        canActivate jwt crypto store headers cookie now =
          .error (.http ⟨"EXPIRED_ACCESS_TOKEN", 401⟩)) ∧
    (canActivate jwt crypto store headers cookie now =
        .error (.http ⟨"INVALID_ACCESS_TOKEN", 401⟩) →
      (∃ raw, headers.authorization = some raw ∧
        (splitOnSpace raw).headD "" ≠ "Bearer") ∨
      (∃ accessToken sessionId session,
        getAccessToken crypto headers = .ok accessToken ∧
        getSessionId crypto cookie = .ok sessionId ∧
        findSessionById store sessionId = some session ∧
        session.accessToken ≠ accessToken)) := by
  constructor
  · intro accessToken sessionId session e h1 h2 h3 h4 h5 h6
    simp only [canActivate, h1, h2, h3]
    rw [if_neg h4, if_neg (by simp [h5]), h6]
  · intro hres
    cases hga : getAccessToken crypto headers with
    | error e =>
      simp only [canActivate, hga] at hres
      injection hres with he
      subst he
      left
      unfold getAccessToken at hga
      cases hauth : headers.authorization with
      | none =>
        rw [hauth] at hga
        exact absurd hga (by simp)
      | some raw =>
        rw [hauth] at hga
        dsimp only at hga
        by_cases hb : ((splitOnSpace raw).headD "" != "Bearer") = true
        · exact ⟨raw, rfl, by simpa [bne_iff_ne] using hb⟩
        · rw [if_neg hb] at hga
          cases hp : (splitOnSpace raw)[1]? with
          | none => rw [hp] at hga; exact absurd hga (by simp)
          | some token => rw [hp] at hga; exact absurd hga (by simp)
    | ok accessToken =>
      cases hgs : getSessionId crypto cookie with
      | error e =>
        simp only [canActivate, hga, hgs] at hres
        injection hres with he
        unfold getSessionId at hgs
        by_cases hc : (cookie == "") = true
        · rw [if_pos hc] at hgs
          injection hgs with he2
          rw [← he2] at he
          exact absurd he (by simp)
        · rw [if_neg hc] at hgs
          exact absurd hgs (by simp)
      | ok sessionId =>
        cases hfd : findSessionById store sessionId with
        | none =>
          simp only [canActivate, hga, hgs, hfd] at hres
          exact absurd hres (by simp)
        | some session =>
          simp only [canActivate, hga, hgs, hfd] at hres
          by_cases hend : session.endsAt < now
          · rw [if_pos hend] at hres
            exact absurd hres (by simp)
          · rw [if_neg hend] at hres
            by_cases hmis : (session.accessToken != accessToken) = true
            · exact Or.inr ⟨accessToken, sessionId, session, rfl, rfl, hfd,
                bne_iff_ne.mp hmis⟩
            · rw [if_neg hmis] at hres
              cases hv : jwt.verifyAccess accessToken with
              | error e => rw [hv] at hres; exact absurd hres (by simp)
              | ok user => rw [hv] at hres; exact absurd hres (by simp)

/-- Witness for the C10 theorem: on the fixture store, a matching stored
token whose JWT verification fails (the fixture verifier reports an expired
token) is reported as `EXPIRED_ACCESS_TOKEN`. -/
theorem guard_expired_code_witness :
    canActivate jwtFixture plainCrypto storeFixture ⟨some "Bearer a0"⟩ "s1" 50 =
      .error (.http ⟨"EXPIRED_ACCESS_TOKEN", 401⟩) :=
  (guard_error_code_channels jwtFixture plainCrypto storeFixture
    ⟨some "Bearer a0"⟩ "s1" 50).1 "a0" "s1" sessionFixture .tokenExpired
    rfl rfl rfl (by decide) rfl rfl

/-- A permission list does not contain `p` exactly when the negated `contains`
test of the resolver is true. -/
theorem not_contains_of_not_mem (l : List Permission) (p : Permission)
    (h : p ∉ l) : (!l.contains p) = true := by
  have hc : l.contains p = false := by
    cases hx : l.contains p
    · rfl
    · exact absurd (List.elem_iff.mp hx) h
  rw [hc]
  rfl

/-- Membership fails when the negated `contains` test of the resolver holds. -/
theorem not_mem_of_not_contains (l : List Permission) (p : Permission)
    (h : (!l.contains p) = true) : p ∉ l := by
  intro hm
  have hc : l.contains p = true := List.elem_iff.mpr hm
  rw [hc] at h
  exact absurd h (by simp)

/-- Claim C2: `hasPermission` returns true exactly when the required set is
empty, or `administratorAccess` is set, or no required permission is excluded
(by the user or by any assigned role) and every required permission is in
(union of roles' inclusions minus union of roles' exclusions) ∪ (user
inclusions minus user exclusions); moreover, without administrator access,
exclusion by any one assigned role vetoes the whole check regardless of what
other roles grant. -/
theorem hasPermission_iff_grant_structure
    (creds : UserAuthorizationCredentialsModel) (required : List Permission) :
    (hasPermission creds required = true ↔
      (required = [] ∨ creds.administratorAccess = true ∨
        ((∀ p ∈ required,
            ¬(p ∈ creds.excludedPermissions ∨ p ∈ roleExcludedPerms creds)) ∧
         (∀ p ∈ required,
            (p ∈ roleIncludedPerms creds ∧ p ∉ roleExcludedPerms creds) ∨
            (p ∈ creds.includedPermissions ∧ p ∉ creds.excludedPermissions))))) ∧
    (creds.administratorAccess = false →
      ∀ p ∈ required, p ∈ roleExcludedPerms creds →
        hasPermission creds required = false) := by
  constructor
  · by_cases hreq : required.isEmpty
    · have h0 : required = [] := List.isEmpty_iff.mp hreq
      subst h0
      simp [hasPermission]
    · have h0 : ¬(required = []) := by
        intro hx; subst hx; simp at hreq
      by_cases hadm : creds.administratorAccess = true
      · simp [hasPermission, hreq, hadm]
      · have hadm2 : creds.administratorAccess = false := Bool.eq_false_iff.mpr hadm
        simp only [hasPermission, hreq, hadm2, Bool.false_eq_true, if_false]
        simp only [h0, false_or, hadm, false_or]
        by_cases hveto : (required.any fun perm =>
            creds.excludedPermissions.contains perm ||
              ((creds.roles.map RoleModel.excludedPermissions).flatten.contains
                perm)) = true
        · rw [if_pos hveto]
          constructor
          · intro hx; exact absurd hx (by simp)
          · rintro ⟨h1, -⟩
            obtain ⟨p, hp, hpv⟩ := List.any_eq_true.mp hveto
            rcases Bool.or_eq_true_iff.mp hpv with hx | hx
            · exact absurd (Or.inl (List.elem_iff.mp hx)) (h1 p hp)
            · exact absurd (Or.inr (List.elem_iff.mp hx)) (h1 p hp)
        · rw [if_neg hveto]
          rw [List.all_eq_true]
          constructor
          · intro hall
            constructor
            · intro p hp hor
              apply hveto
              refine List.any_eq_true.mpr ⟨p, hp, ?_⟩
              rcases hor with hx | hx
              · exact Bool.or_eq_true_iff.mpr (Or.inl (List.elem_iff.mpr hx))
              · exact Bool.or_eq_true_iff.mpr (Or.inr (List.elem_iff.mpr hx))
            · intro p hp
              have hx := hall p hp
              have hmem := List.elem_iff.mp hx
              rcases List.mem_append.mp hmem with hy | hy
              · obtain ⟨hyi, hyf⟩ := List.mem_filter.mp hy
                exact Or.inl ⟨hyi, not_mem_of_not_contains _ _ hyf⟩
              · obtain ⟨hyi, hyf⟩ := List.mem_filter.mp hy
                exact Or.inr ⟨hyi, not_mem_of_not_contains _ _ hyf⟩
          · rintro ⟨h1, h2⟩ p hp
            refine List.elem_iff.mpr ?_
            rcases h2 p hp with ⟨hin, hnex⟩ | ⟨hin, hnex⟩
            · exact List.mem_append.mpr (Or.inl
                (List.mem_filter.mpr ⟨hin, not_contains_of_not_mem _ _ hnex⟩))
            · exact List.mem_append.mpr (Or.inr
                (List.mem_filter.mpr ⟨hin, not_contains_of_not_mem _ _ hnex⟩))
  · intro hadm p hp hpe
    by_cases hreq : required.isEmpty
    · have h0 : required = [] := List.isEmpty_iff.mp hreq
      subst h0
      exact absurd hp (by simp)
    · simp only [hasPermission, hreq, hadm, Bool.false_eq_true, if_false]
      rw [if_pos ?_]
      refine List.any_eq_true.mpr ⟨p, hp, ?_⟩
      exact Bool.or_eq_true_iff.mpr (Or.inr (List.elem_iff.mpr hpe))

/-- Witness for the C2 theorem: on the fixture grant set (role includes
`doc.READ`, excludes `doc.WRITE`; user includes `doc.LIST`), the requirement
`[doc.READ, doc.LIST]` is granted and `[doc.WRITE]` is vetoed. -/
theorem hasPermission_witness :
    hasPermission credsFixture ["doc.READ", "doc.LIST"] = true ∧
    hasPermission credsFixture ["doc.WRITE"] = false := by
  constructor
  · exact (hasPermission_iff_grant_structure credsFixture
      ["doc.READ", "doc.LIST"]).1.mpr (Or.inr (Or.inr (by

        constructor
        · intro p hp
          simp [credsFixture, roleExcludedPerms] at hp ⊢
          rcases hp with rfl | rfl <;> simp
        · intro p hp
          simp [credsFixture, roleExcludedPerms, roleIncludedPerms] at hp ⊢
          rcases hp with rfl | rfl <;> simp)))
  · exact (hasPermission_iff_grant_structure credsFixture ["doc.WRITE"]).2 rfl
      "doc.WRITE" (by simp) (by simp [credsFixture, roleExcludedPerms])

end IAM
